import Mathlib

/-!
Shallow embedding of the music recommendation service
(`recommendations_service.py`): the dataset-store state, the catalog
lookup, the offline and online candidate generators, the blender, the
request orchestrator, and the health/track endpoints.

Modelling conventions:
* pandas DataFrames become typed row lists; a table that failed to load
  (`None` in the source) becomes `Option.none`.
* Python floats (scores) are modelled as exact rationals `ℚ`; the one
  place where binary floating point is observable — the blender's
  `int(total_limit * 0.7)` — is modelled bit-exactly for the validated
  range `total_limit ≤ 100` (see `offlineQuota`).
* the random sampling stage (`items_df.sample(...)`) is parameterised by
  the list of drawn rows (`sample`), standing for a draw without
  replacement from the catalog of size `min(remaining, len(items))`.
* `sorted(..., key=..., reverse=True)` (a stable descending sort) is
  modelled by the stable sort `sortBy` with the reflexive comparator
  `b.score ≤ a.score`, which is stable in exactly the same sense.
  The per-seed pandas `sort_values(..., ascending=False)` does not
  document a tie order; the model fixes the stable refinement.
-/

deriving instance DecidableEq for Except

/-- Insert `a` in front of the first element `b` with `le a b`: the
insertion step of a stable sort. -/
def insertLe {α : Type} (le : α → α → Bool) (a : α) : List α → List α
  | [] => [a]
  | b :: bs => if le a b then a :: b :: bs else b :: insertLe le a bs

/-- A stable sort (insertion sort): models Python's stable `sorted` and
the pandas `sort_values` used by the service.  With the total reflexive
comparator `le x y = (key y ≤ key x)` this is exactly
`sorted(..., key=key, reverse=True)`: descending, ties in input order. -/
def sortBy {α : Type} (le : α → α → Bool) : List α → List α
  | [] => []
  | a :: as => insertLe le a (sortBy le as)

/-- A row of the catalog table `items_df` (one track). -/
structure ItemRow where
  track_id : Int
  track_name : String
  artist_names : List String
  genre_names : List String
  deriving DecidableEq, Repr

/-- A row of the similarity table `similar_df`. -/
structure SimilarRow where
  track_id : Int
  similar_track_id : Int
  similarity_score : ℚ
  deriving DecidableEq, Repr

/-- A row of the personal recommendations table `personal_recs_df`.
`score` is optional: the source reads it with `row.get('score', 0.5)`. -/
structure PersonalRow where
  user_id : Int
  track_id : Int
  score : Option ℚ
  deriving DecidableEq, Repr

/-- A row of the popularity table `top_popular_df`.
`users` is optional: the source reads it with `row.get('users', 1)`. -/
structure PopularRow where
  track_id : Int
  users : Option ℚ
  deriving DecidableEq, Repr

/-- The pydantic `TrackInfo` model. -/
structure TrackInfo where
  track_name : String
  artist_names : List String
  genre_names : List String
  deriving DecidableEq, Repr

/-- The pydantic `TrackRecommendation` model. -/
structure TrackRecommendation where
  track_id : Int
  track_name : String
  artists : List String
  genres : List String
  score : ℚ
  type : String
  source : String
  based_on_track : Option Int := none
  deriving DecidableEq, Repr

/-- The mutable table state of `RecommendationService`: each table is
either loaded (`some rows`) or absent (`none`). -/
structure ServiceState where
  items_df : Option (List ItemRow)
  similar_df : Option (List SimilarRow)
  personal_recs_df : Option (List PersonalRow)
  top_popular_df : Option (List PopularRow)
  deriving DecidableEq, Repr

/-- `RecommendationService.get_track_info`: first catalog row matching
`track_id`, or `none` when the catalog is absent or the id unmatched. -/
def get_track_info (st : ServiceState) (track_id : Int) : Option TrackInfo :=
  match st.items_df with
  | none => none
  | some items =>
    match items.find? (fun r => r.track_id == track_id) with
    | none => none
    | some row => some ⟨row.track_name, row.artist_names, row.genre_names⟩

/-- The personal table rows matching `user_id`
(`personal_recs_df[personal_recs_df['user_id'] == user_id]`),
empty when the table is absent. -/
def personalRowsFor (st : ServiceState) (user_id : Int) : List PersonalRow :=
  match st.personal_recs_df with
  | none => []
  | some personal => personal.filter (fun r => r.user_id == user_id)

/-- The loop body of stage 1: resolve the row through the catalog and
append a `personal_als` candidate, or skip an unresolved id. -/
def personalStep (st : ServiceState) (acc : List TrackRecommendation)
    (row : PersonalRow) : List TrackRecommendation :=
  match get_track_info st row.track_id with
  | none => acc
  | some ti => acc ++
      [{ track_id := row.track_id, track_name := ti.track_name,
         artists := ti.artist_names, genres := ti.genre_names,
         score := row.score.getD (mkRat 1 2),
         type := "personal_als", source := "offline" }]

/-- Stage 1 of `get_offline_recommendations`: resolve up to `limit`
personal rows through the catalog, skipping unresolved ids. -/
def personalStage (st : ServiceState) (user_id : Int) (limit : Nat) :
    List TrackRecommendation :=
  ((personalRowsFor st user_id).take limit).foldl (personalStep st) []

/-- The loop body of stage 2: append a resolved `top_popular` candidate
unless its `track_id` is already accumulated. -/
def popularStep (st : ServiceState) (acc : List TrackRecommendation)
    (row : PopularRow) : List TrackRecommendation :=
  match get_track_info st row.track_id with
  | none => acc
  | some ti =>
    if acc.any (fun r => r.track_id == row.track_id) then acc
    else acc ++
      [{ track_id := row.track_id, track_name := ti.track_name,
         artists := ti.artist_names, genres := ti.genre_names,
         score := row.users.getD 1,
         type := "top_popular", source := "offline" }]

/-- Stage 2 of `get_offline_recommendations`: while below `limit`, take
popular rows in table order, skipping unresolved ids and ids already
accumulated. -/
def popularStage (st : ServiceState) (limit : Nat)
    (recs : List TrackRecommendation) : List TrackRecommendation :=
  if recs.length < limit then
    match st.top_popular_df with
    | none => recs
    | some top =>
      (top.take (limit - recs.length)).foldl (popularStep st) recs
  else recs

/-- Stage 3 of `get_offline_recommendations`: while below `limit` and the
catalog is loaded, append the drawn random rows, skipping ids already
accumulated.  `sample` stands for `items_df.sample(min(remaining, len(items)))`. -/
def randomStep (acc : List TrackRecommendation) (row : ItemRow) :
    List TrackRecommendation :=
  if acc.any (fun r => r.track_id == row.track_id) then acc
  else acc ++
    [{ track_id := row.track_id, track_name := row.track_name,
       artists := row.artist_names, genres := row.genre_names,
       score := mkRat 1 10,
       type := "random", source := "offline" }]

/-- Stage 3 body, continued: while below `limit` and the catalog is
loaded, fold the drawn rows through `randomStep`. -/
def randomStage (st : ServiceState) (limit : Nat) (sample : List ItemRow)
    (recs : List TrackRecommendation) : List TrackRecommendation :=
  if recs.length < limit then
    match st.items_df with
    | none => recs
    | some _ => sample.foldl randomStep recs
  else recs

/-- `RecommendationService.get_offline_recommendations`: the three-stage
cascade (personal → popular → random), truncated to `limit`. -/
def get_offline_recommendations (st : ServiceState) (user_id : Int)
    (limit : Nat) (sample : List ItemRow) : List TrackRecommendation :=
  (randomStage st limit sample
    (popularStage st limit (personalStage st user_id limit))).take limit

/-- One seed of the online loop: similarity rows for `tid`, sorted
descending by `similarity_score`, top 3, resolved through the catalog. -/
def perSeed (st : ServiceState) (similar : List SimilarRow) (tid : Int) :
    List TrackRecommendation :=
  ((sortBy (fun a b => decide (b.similarity_score ≤ a.similarity_score))
      (similar.filter (fun r => r.track_id == tid))).take 3).filterMap
    (fun srow =>
      (get_track_info st srow.similar_track_id).map (fun ti =>
        { track_id := srow.similar_track_id, track_name := ti.track_name,
          artists := ti.artist_names, genres := ti.genre_names,
          score := srow.similarity_score,
          type := "similar_to_history", source := "online",
          based_on_track := some tid }))

/-- The accumulated (pre-deduplication) online candidates: seeds are the
last 5 history entries (`user_history[-5:]`), in order. -/
def onlineCandidates (st : ServiceState) (user_history : List Int) :
    List TrackRecommendation :=
  match st.similar_df with
  | none => []
  | some similar =>
    if user_history.isEmpty then []
    else
      (user_history.drop (user_history.length - 5)).foldl
        (fun acc tid => acc ++ perSeed st similar tid) []

/-- The `seen`-set deduplication loop: keep the first occurrence of each
`track_id`, given the ids already seen. -/
def dedupByTrackId : List TrackRecommendation → List Int → List TrackRecommendation
  | [], _ => []
  | r :: rs, seen =>
    if seen.contains r.track_id then dedupByTrackId rs seen
    else r :: dedupByTrackId rs (r.track_id :: seen)

/-- The deduplicated online candidate list (`unique_recs` in the source). -/
def onlineDeduped (st : ServiceState) (user_history : List Int) :
    List TrackRecommendation :=
  dedupByTrackId (onlineCandidates st user_history) []

/-- `RecommendationService.get_online_recommendations`: deduplicated
candidates, stably sorted descending by score, truncated to `limit`. -/
def get_online_recommendations (st : ServiceState) (user_history : List Int)
    (limit : Nat) : List TrackRecommendation :=
  (sortBy (fun a b => decide (b.score ≤ a.score))
    (onlineDeduped st user_history)).take limit

/-- The 53-bit significand of the IEEE-754 double nearest to `0.7`:
`0.7 = 6305039478318694 / 2^53` after rounding. -/
def mantissa07 : Nat := 6305039478318694

/-- How many low bits must be rounded away to bring `N` to 53 significant
bits.  Exact for `N < 2^61`, which covers `total_limit ≤ 100`. -/
def roundShift (N : Nat) : Nat :=
  if N < 9007199254740992 then 0        -- 2^53
  else if N < 18014398509481984 then 1  -- 2^54
  else if N < 36028797018963968 then 2  -- 2^55
  else if N < 72057594037927936 then 3  -- 2^56
  else if N < 144115188075855872 then 4 -- 2^57
  else if N < 288230376151711744 then 5 -- 2^58
  else if N < 576460752303423488 then 6 -- 2^59
  else if N < 1152921504606846976 then 7 -- 2^60
  else 8

/-- Round `N` to a multiple of `2^sh`, ties to even, as IEEE-754
round-to-nearest does on the significand. -/
def roundNearestEven (N sh : Nat) : Nat :=
  let q := N / 2 ^ sh
  let r := N % 2 ^ sh
  if 2 * r < 2 ^ sh then q * 2 ^ sh
  else if 2 * r > 2 ^ sh then (q + 1) * 2 ^ sh
  else if q % 2 = 0 then q * 2 ^ sh else (q + 1) * 2 ^ sh

/-- `int(total_limit * 0.7)` computed in IEEE-754 double arithmetic, as
CPython does: the exact product `total_limit * (6305039478318694/2^53)`
is rounded to the nearest double and then truncated toward zero.
Bit-exact for `total_limit ≤ 100` (the orchestrator validates
`limit ∈ [1,100]`). -/
def offlineQuota (total_limit : Nat) : Nat :=
  let N := total_limit * mantissa07
  roundNearestEven N (roundShift N) / 9007199254740992

/-- `online_limit = total_limit - offline_limit` from the blender. -/
def onlineQuota (total_limit : Nat) : Nat :=
  total_limit - offlineQuota total_limit

/-- `RecommendationService.blend_recommendations`: offline head up to the
70% quota, then online candidates from the first `online_limit` ones not
duplicating the head, then offline backfill, truncated to `total_limit`. -/
def blend_recommendations (offline_recs online_recs : List TrackRecommendation)
    (total_limit : Nat) : List TrackRecommendation :=
  let offline_limit := offlineQuota total_limit
  let online_limit := total_limit - offline_limit
  let blended1 := offline_recs.take offline_limit
  let offline_track_ids := blended1.map (fun r => r.track_id)
  let blended2 := (online_recs.take online_limit).foldl
      (fun acc onr =>
        if offline_track_ids.contains onr.track_id then acc else acc ++ [onr])
      blended1
  if blended2.length < total_limit then
    let remaining := total_limit - blended2.length
    let additional := (offline_recs.drop offline_limit).filter
        (fun r => !(blended2.map (fun b => b.track_id)).contains r.track_id)
    (blended2 ++ additional.take remaining).take total_limit
  else blended2.take total_limit

/-- The `statistics` dictionary of the recommendation response. -/
structure Statistics where
  total_recommendations : Nat
  offline_count : Nat
  online_count : Nat
  user_id : Int
  online_history_provided : Bool
  deriving DecidableEq, Repr

/-- The pydantic `RecommendationResponse` (timestamp omitted: real time). -/
structure RecommendationResponse where
  user_id : Int
  recommendations : List TrackRecommendation
  statistics : Statistics
  deriving DecidableEq, Repr

/-- An `HTTPException` raised to the client. -/
structure HttpError where
  status_code : Nat
  detail : String
  deriving DecidableEq, Repr

/-- Python's `str.split(',')` on the character list: always at least one
piece, so the empty string splits to `[""]`. -/
def splitCommaAux : List Char → List Char → List (List Char)
  | [], cur => [cur.reverse]
  | c :: cs, cur =>
    if c = ',' then cur.reverse :: splitCommaAux cs []
    else splitCommaAux cs (c :: cur)

/-- `str.strip()`: drop leading and trailing whitespace. -/
def stripChars (l : List Char) : List Char :=
  ((l.dropWhile Char.isWhitespace).reverse.dropWhile Char.isWhitespace).reverse

/-- Digits of a decimal literal to a natural number; `none` on a
non-digit or on the empty string. -/
def digitsToNat : List Char → Option Nat
  | [] => none
  | l => l.foldl
      (fun acc c =>
        match acc with
        | none => none
        | some n => if c.isDigit then some (n * 10 + (c.toNat - 48)) else none)
      (some 0)

/-- Python's `int(x)` on a (pre-stripped) string: optional sign then a
nonempty digit run; `ValueError` becomes `none`. -/
def pyInt (l : List Char) : Option Int :=
  match l with
  | '-' :: rest => (digitsToNat rest).map (fun n => -(n : Int))
  | '+' :: rest => (digitsToNat rest).map (fun n => (n : Int))
  | _ => (digitsToNat l).map (fun n => (n : Int))

/-- `[int(x.strip()) for x in online_history.split(',')]`: `none` models
the `ValueError` of any malformed entry. -/
def parseHistoryString (s : String) : Option (List Int) :=
  (splitCommaAux s.data []).mapM (fun piece => pyInt (stripChars piece))

/-- Lines 374-380 of the source: no parameter or a falsy (empty) string
yields the empty history; otherwise parse, turning `ValueError` into a
400 error. -/
def parseOnlineHistory (online_history : Option String) :
    Except HttpError (List Int) :=
  match online_history with
  | none => .ok []
  | some s =>
    if s.isEmpty then .ok []
    else
      match parseHistoryString s with
      | some l => .ok l
      | none => .error ⟨400, "Invalid online_history format"⟩

/-- The `GET /recommend/{user_id}` handler: validate `limit`, parse the
history, run both generators, blend, and assemble statistics.  The random
draw of the offline generator is the `sample` parameter. -/
def get_recommendations (st : ServiceState) (user_id : Int) (limit : Int)
    (online_history : Option String) (sample : List ItemRow) :
    Except HttpError RecommendationResponse :=
  if limit ≤ 0 ∨ 100 < limit then
    .error ⟨400, "Limit must be between 1 and 100"⟩
  else
    match parseOnlineHistory online_history with
    | .error e => .error e
    | .ok user_online_history =>
      let offline_recs := get_offline_recommendations st user_id limit.toNat sample
      let online_recs := get_online_recommendations st user_online_history limit.toNat
      let final := blend_recommendations offline_recs online_recs limit.toNat
      .ok { user_id := user_id, recommendations := final,
            statistics :=
              { total_recommendations := final.length,
                offline_count := offline_recs.length,
                online_count := online_recs.length,
                user_id := user_id,
                online_history_provided := user_online_history.length > 0 } }

/-- The `/health` response (timestamp omitted: real time). -/
structure HealthResponse where
  status : String
  data_loaded : Bool
  deriving DecidableEq, Repr

/-- The `GET /health` handler: loaded means the catalog is present and at
least one of the personal/popularity tables is present. -/
def health (st : ServiceState) : HealthResponse :=
  let data_status := st.items_df.isSome &&
    (st.personal_recs_df.isSome || st.top_popular_df.isSome)
  { status := if data_status then "healthy" else "degraded",
    data_loaded := data_status }

/-- The `GET /track/{track_id}` handler: 404 when the lookup yields
nothing (a pydantic model instance is always truthy, so only `None`
triggers the 404 branch). -/
def get_track_info_endpoint (st : ServiceState) (track_id : Int) :
    Except HttpError TrackInfo :=
  match get_track_info st track_id with
  | none => .error ⟨404, "Track not found"⟩
  | some ti => .ok ti

/-- Modelled from the spec's words (claim C3, spec 4.5 step 2): append
from `online`, in given order, those whose `track_id` is not already
present, until `quota` are appended or `online` is exhausted.  Kept
separate from `blend_recommendations` (which is translated from the
source) so the two append rules can be compared. -/
def specOnlineFill : List Int → List TrackRecommendation → Nat → List TrackRecommendation
  | _, _, 0 => []
  | _, [], _ + 1 => []
  | present, r :: rs, q + 1 =>
    if present.contains r.track_id then specOnlineFill present rs (q + 1)
    else r :: specOnlineFill (r.track_id :: present) rs q

/-! ## Concrete inputs used by counterexamples and witnesses -/

/-- A catalog row with no metadata, for concrete test states. -/
def sampleItem (n : Int) : ItemRow := ⟨n, "track", [], []⟩

/-- A candidate record with a given id and score, for concrete inputs. -/
def sampleRec (n : Int) (s : ℚ) : TrackRecommendation :=
  { track_id := n, track_name := "t", artists := [], genres := [],
    score := s, type := "top_popular", source := "offline" }

/-- A state with a two-track catalog and two similarity rows for seed 1:
the online generator yields two candidates for history `[1]`. -/
def stOnline : ServiceState :=
  { items_df := some [sampleItem 101, sampleItem 102],
    similar_df := some [⟨1, 101, mkRat 9 10⟩, ⟨1, 102, mkRat 4 5⟩],
    personal_recs_df := none, top_popular_df := none }

/-- A state whose personal table repeats `track_id` 7 for user 1. -/
def stDupPersonal : ServiceState :=
  { items_df := some [sampleItem 7], similar_df := none,
    personal_recs_df := some [⟨1, 7, some (mkRat 9 10)⟩, ⟨1, 7, some (mkRat 4 5)⟩],
    top_popular_df := none }

/-- A state with one personal row for user 1 and one popularity row. -/
def stOnePersonal : ServiceState :=
  { items_df := some [sampleItem 7, sampleItem 8], similar_df := none,
    personal_recs_df := some [⟨1, 7, some 1⟩],
    top_popular_df := some [⟨8, some 5⟩] }

/-! ## Generic lemmas about the accumulation loops -/

/-- A fold that appends the resolution `g row ti` whenever `f row`
resolves is a `filterMap`. -/
theorem foldl_resolveAppend {β δ γ : Type} (f : β → Option δ) (g : β → δ → γ) :
    ∀ (rows : List β) (acc : List γ),
      rows.foldl (fun acc row =>
        match f row with
        | none => acc
        | some ti => acc ++ [g row ti]) acc
      = acc ++ rows.filterMap (fun row => (f row).map (g row)) := by
  intro rows
  induction rows with
  | nil => intro acc; simp
  | cons r rs ih =>
    intro acc
    cases h : f r with
    | none => simp [List.foldl_cons, h, ih]
    | some ti => simp [List.foldl_cons, h, ih, List.append_assoc]

/-- A fold whose step never changes the accumulator is the identity. -/
theorem foldl_const {β γ : Type} (step : γ → β → γ)
    (h : ∀ acc row, step acc row = acc) :
    ∀ (rows : List β) (acc : γ), rows.foldl step acc = acc := by
  intro rows
  induction rows with
  | nil => intro acc; rfl
  | cons r rs ih => intro acc; rw [List.foldl_cons, h, ih]

/-- The blender's online loop, which skips ids in the fixed set `ids`,
is an append of a `filter`. -/
theorem foldl_filterAppend (ids : List Int) :
    ∀ (online acc : List TrackRecommendation),
      online.foldl (fun acc r =>
        if ids.contains r.track_id then acc else acc ++ [r]) acc
      = acc ++ online.filter (fun r => !ids.contains r.track_id) := by
  intro online
  induction online with
  | nil => intro acc; simp
  | cons r rs ih =>
    intro acc
    rw [List.foldl_cons, List.filter_cons]
    cases h : ids.contains r.track_id with
    | true =>
      simp only [Bool.not_true, if_true, Bool.false_eq_true, if_false]
      exact ih acc
    | false =>
      simp only [Bool.not_false, Bool.false_eq_true, if_false, if_true]
      rw [ih, List.append_assoc, List.singleton_append]

/-- A failed `any (· == t)` check means `t` is not among the accumulated
track ids. -/
theorem any_track_id_eq_false {acc : List TrackRecommendation} {t : Int}
    (h : acc.any (fun r => r.track_id == t) = false) :
    t ∉ acc.map (fun r => r.track_id) := by
  intro hmem
  rcases List.mem_map.mp hmem with ⟨r, hr, hrt⟩
  have : acc.any (fun r => r.track_id == t) = true :=
    List.any_eq_true.mpr ⟨r, hr, by simp [hrt]⟩
  rw [h] at this
  exact Bool.false_ne_true this

/-- A fold whose step either keeps the accumulator or appends a single
record with a fresh `track_id` preserves distinctness of the track ids. -/
theorem foldl_guard_nodup {β : Type}
    (step : List TrackRecommendation → β → List TrackRecommendation)
    (hstep : ∀ acc row, step acc row = acc ∨
      ∃ r, step acc row = acc ++ [r] ∧
        r.track_id ∉ acc.map (fun x => x.track_id)) :
    ∀ (rows : List β) (acc : List TrackRecommendation),
      (acc.map (fun x => x.track_id)).Nodup →
      ((rows.foldl step acc).map (fun x => x.track_id)).Nodup := by
  intro rows
  induction rows with
  | nil => intro acc hacc; exact hacc
  | cons r rs ih =>
    intro acc hacc
    rw [List.foldl_cons]
    rcases hstep acc r with h | ⟨x, hx, hfresh⟩
    · rw [h]; exact ih acc hacc
    · rw [hx]
      refine ih _ ?_
      rw [List.map_append, List.map_singleton]
      refine List.Nodup.append hacc (List.nodup_singleton _) ?_
      intro a ha hb
      rw [List.mem_singleton] at hb
      subst hb
      exact hfresh ha

/-- A fold of the guarded-append shape only ever extends the
accumulator: the result is `acc ++ tail` for some `tail`. -/
theorem foldl_guard_extends {β : Type}
    (step : List TrackRecommendation → β → List TrackRecommendation)
    (hstep : ∀ acc row, step acc row = acc ∨
      ∃ r, step acc row = acc ++ [r] ∧
        r.track_id ∉ acc.map (fun x => x.track_id)) :
    ∀ (rows : List β) (acc : List TrackRecommendation),
      ∃ tail, rows.foldl step acc = acc ++ tail := by
  intro rows
  induction rows with
  | nil => intro acc; exact ⟨[], by simp⟩
  | cons r rs ih =>
    intro acc
    rw [List.foldl_cons]
    rcases hstep acc r with h | ⟨x, hx, _⟩
    · rw [h]; exact ih acc
    · rw [hx]
      rcases ih (acc ++ [x]) with ⟨tail, htail⟩
      exact ⟨[x] ++ tail, by rw [htail, List.append_assoc]⟩

/-- `contains` deciding `false` is non-membership. -/
theorem contains_eq_false_iff {l : List Int} {a : Int} :
    l.contains a = false ↔ a ∉ l := by
  simp [List.contains]

/-- A `personalStep` fold is an append of a `filterMap`. -/
theorem personalFold_eq (st : ServiceState) :
    ∀ (rows : List PersonalRow) (acc : List TrackRecommendation),
      rows.foldl (personalStep st) acc
        = acc ++ rows.filterMap
            (fun row => (get_track_info st row.track_id).map (fun ti =>
              ({ track_id := row.track_id, track_name := ti.track_name,
                 artists := ti.artist_names, genres := ti.genre_names,
                 score := row.score.getD (mkRat 1 2),
                 type := "personal_als", source := "offline" } : TrackRecommendation))) := by
  intro rows
  induction rows with
  | nil => intro acc; simp
  | cons r rs ih =>
    intro acc
    rw [List.foldl_cons]
    cases h : get_track_info st r.track_id with
    | none =>
      rw [List.filterMap_cons_none (by rw [h]; rfl)]
      have hstep : personalStep st acc r = acc := by simp [personalStep, h]
      rw [hstep, ih]
    | some ti =>
      rw [List.filterMap_cons_some (by rw [h]; rfl)]
      have hstep : personalStep st acc r = acc ++
          [{ track_id := r.track_id, track_name := ti.track_name,
             artists := ti.artist_names, genres := ti.genre_names,
             score := r.score.getD (mkRat 1 2),
             type := "personal_als", source := "offline" }] := by
        simp [personalStep, h]
      rw [hstep, ih, List.append_assoc, List.singleton_append]

/-- Stage 1 as a `filterMap` over the user's personal rows. -/
theorem personalStage_eq (st : ServiceState) (uid : Int) (limit : Nat) :
    personalStage st uid limit
      = ((personalRowsFor st uid).take limit).filterMap
          (fun row => (get_track_info st row.track_id).map (fun ti =>
            ({ track_id := row.track_id, track_name := ti.track_name,
               artists := ti.artist_names, genres := ti.genre_names,
               score := row.score.getD (mkRat 1 2),
               type := "personal_als", source := "offline" } : TrackRecommendation))) := by
  unfold personalStage
  rw [personalFold_eq, List.nil_append]

/-- A `filterMap` that only keeps resolutions of rows projects, under the
id map, to a sublist of the rows' ids. -/
theorem filterMap_map_sublist {β δ γ σ : Type} (f : β → Option δ) (g : β → δ → γ)
    (h : γ → σ) (k : β → σ) (hk : ∀ row ti, h (g row ti) = k row) :
    ∀ rows : List β,
      ((rows.filterMap (fun row => (f row).map (g row))).map h).Sublist (rows.map k) := by
  intro rows
  induction rows with
  | nil => simp
  | cons r rs ih =>
    rw [List.map_cons]
    cases hf : f r with
    | none =>
      rw [List.filterMap_cons_none (by rw [hf]; rfl)]
      exact ih.cons _
    | some ti =>
      rw [List.filterMap_cons_some (by rw [hf]; rfl), List.map_cons, hk]
      exact ih.cons₂ _

/-- The track ids emitted by the personal stage are, in order, a sublist
of the user's personal-row ids. -/
theorem personalStage_ids_sublist (st : ServiceState) (uid : Int) (limit : Nat) :
    ((personalStage st uid limit).map (fun r => r.track_id)).Sublist
      ((personalRowsFor st uid).map (fun row => row.track_id)) := by
  rw [personalStage_eq]
  exact (filterMap_map_sublist (fun row => get_track_info st row.track_id)
    (fun row ti =>
      ({ track_id := row.track_id, track_name := ti.track_name,
         artists := ti.artist_names, genres := ti.genre_names,
         score := row.score.getD (mkRat 1 2),
         type := "personal_als", source := "offline" } : TrackRecommendation))
    (fun r => r.track_id) (fun row => row.track_id) (fun _ _ => rfl)
    ((personalRowsFor st uid).take limit)).trans
    ((List.take_sublist _ _).map _)

/-- The popularity stage's step keeps or freshly extends the accumulator. -/
theorem popularStep_spec (st : ServiceState) :
    ∀ (acc : List TrackRecommendation) (row : PopularRow),
      popularStep st acc row = acc ∨
      ∃ r, popularStep st acc row = acc ++ [r] ∧
        r.track_id ∉ acc.map (fun x => x.track_id) := by
  intro acc row
  cases hti : get_track_info st row.track_id with
  | none => left; simp [popularStep, hti]
  | some ti =>
    cases hany : acc.any (fun r => r.track_id == row.track_id) with
    | true => left; simp [popularStep, hti, hany]
    | false =>
      right
      refine ⟨{ track_id := row.track_id, track_name := ti.track_name,
                artists := ti.artist_names, genres := ti.genre_names,
                score := row.users.getD 1,
                type := "top_popular", source := "offline" }, ?_, ?_⟩
      · simp [popularStep, hti, hany]
      · exact any_track_id_eq_false hany

/-- The popularity stage preserves distinctness of track ids. -/
theorem popularStage_nodup (st : ServiceState) (limit : Nat)
    (recs : List TrackRecommendation)
    (h : (recs.map (fun r => r.track_id)).Nodup) :
    ((popularStage st limit recs).map (fun r => r.track_id)).Nodup := by
  unfold popularStage
  split
  · split
    · exact h
    · exact foldl_guard_nodup _ (popularStep_spec st) _ recs h
  · exact h

/-- The random stage's step keeps or freshly extends the accumulator. -/
theorem randomStep_spec :
    ∀ (acc : List TrackRecommendation) (row : ItemRow),
      randomStep acc row = acc ∨
      ∃ r, randomStep acc row = acc ++ [r] ∧
        r.track_id ∉ acc.map (fun x => x.track_id) := by
  intro acc row
  cases hany : acc.any (fun r => r.track_id == row.track_id) with
  | true => left; simp [randomStep, hany]
  | false =>
    right
    refine ⟨{ track_id := row.track_id, track_name := row.track_name,
              artists := row.artist_names, genres := row.genre_names,
              score := mkRat 1 10,
              type := "random", source := "offline" }, ?_, ?_⟩
    · simp [randomStep, hany]
    · exact any_track_id_eq_false hany

/-- The random stage preserves distinctness of track ids. -/
theorem randomStage_nodup (st : ServiceState) (limit : Nat) (sample : List ItemRow)
    (recs : List TrackRecommendation)
    (h : (recs.map (fun r => r.track_id)).Nodup) :
    ((randomStage st limit sample recs).map (fun r => r.track_id)).Nodup := by
  unfold randomStage
  split
  · split
    · exact h
    · exact foldl_guard_nodup _ randomStep_spec _ recs h
  · exact h

/-- Without a catalog no track resolves. -/
theorem get_track_info_none {st : ServiceState} (h : st.items_df = none)
    (tid : Int) : get_track_info st tid = none := by
  unfold get_track_info
  rw [h]

/-- Without a catalog the personal stage emits nothing. -/
theorem personalStage_items_none {st : ServiceState} (h : st.items_df = none)
    (uid : Int) (limit : Nat) : personalStage st uid limit = [] := by
  rw [personalStage_eq]
  refine List.filterMap_eq_nil_iff.mpr (fun row _ => ?_)
  rw [get_track_info_none h]
  rfl

/-- Without a catalog the popularity stage changes nothing. -/
theorem popularStage_items_none {st : ServiceState} (h : st.items_df = none)
    (limit : Nat) (recs : List TrackRecommendation) :
    popularStage st limit recs = recs := by
  unfold popularStage
  split
  · split
    · rfl
    · exact foldl_const _
        (fun acc row => by simp [popularStep, get_track_info_none h]) _ recs
  · rfl

/-- Without a catalog the random stage is skipped. -/
theorem randomStage_items_none {st : ServiceState} (h : st.items_df = none)
    (limit : Nat) (sample : List ItemRow) (recs : List TrackRecommendation) :
    randomStage st limit sample recs = recs := by
  unfold randomStage
  split
  · rw [h]
  · rfl

/-- C7: for every user id and limit, if the Dataset Store has no catalog
table then the offline generator returns the empty sequence — all three
stages resolve or draw nothing. -/
theorem claim_C7 (st : ServiceState) (uid : Int) (limit : Nat)
    (sample : List ItemRow) (h : st.items_df = none) :
    get_offline_recommendations st uid limit sample = [] := by
  unfold get_offline_recommendations
  rw [personalStage_items_none h, popularStage_items_none h,
    randomStage_items_none h, List.take_nil]

/-- Witness for C7: the all-absent state yields an empty offline list. -/
theorem claim_C7_witness :
    (⟨none, none, none, none⟩ : ServiceState).items_df = none ∧
    get_offline_recommendations ⟨none, none, none, none⟩ 1 10 [] = [] :=
  ⟨rfl, claim_C7 ⟨none, none, none, none⟩ 1 10 [] rfl⟩

/-- C8: the health endpoint reports degraded with `data_loaded = false`
exactly when the catalog is missing or both the personal and popularity
tables are absent, and healthy with `data_loaded = true` otherwise. -/
theorem claim_C8 (st : ServiceState) :
    (((health st).status = "degraded" ∧ (health st).data_loaded = false) ↔
      (st.items_df = none ∨
        (st.personal_recs_df = none ∧ st.top_popular_df = none)))
    ∧ (((health st).status = "healthy" ∧ (health st).data_loaded = true) ↔
      ¬(st.items_df = none ∨
        (st.personal_recs_df = none ∧ st.top_popular_df = none))) := by
  obtain ⟨i, s, p, t⟩ := st
  cases i <;> cases p <;> cases t <;> simp [health]

/-- C9: with the catalog absent, the track endpoint returns the same
404 "Track not found" outcome as a lookup of an id missing from a loaded
catalog. -/
theorem claim_C9 (stN stS : ServiceState) (catalog : List ItemRow) (tid : Int)
    (hN : stN.items_df = none) (hS : stS.items_df = some catalog)
    (habsent : ∀ r ∈ catalog, r.track_id ≠ tid) :
    get_track_info_endpoint stN tid = .error ⟨404, "Track not found"⟩ ∧
    get_track_info_endpoint stS tid = .error ⟨404, "Track not found"⟩ := by
  constructor
  · unfold get_track_info_endpoint
    rw [get_track_info_none hN]
  · unfold get_track_info_endpoint
    have hfind : catalog.find? (fun r => r.track_id == tid) = none :=
      List.find?_eq_none.mpr (fun r hr => by
        simp only [beq_iff_eq]
        exact habsent r hr)
    have hti : get_track_info stS tid = none := by
      simp [get_track_info, hS, hfind]
    rw [hti]

/-- Witness for C9: id 3 against the absent catalog and against a loaded
catalog holding only id 5. -/
theorem claim_C9_witness :
    (⟨none, none, none, none⟩ : ServiceState).items_df = none ∧
    (⟨some [sampleItem 5], none, none, none⟩ : ServiceState).items_df
      = some [sampleItem 5] ∧
    (∀ r ∈ [sampleItem 5], r.track_id ≠ 3) ∧
    (get_track_info_endpoint ⟨none, none, none, none⟩ 3
        = .error ⟨404, "Track not found"⟩ ∧
      get_track_info_endpoint ⟨some [sampleItem 5], none, none, none⟩ 3
        = .error ⟨404, "Track not found"⟩) :=
  ⟨rfl, rfl, by decide,
    claim_C9 ⟨none, none, none, none⟩ ⟨some [sampleItem 5], none, none, none⟩
      [sampleItem 5] 3 rfl rfl (by decide)⟩

/-- C10: an empty `online_history` query string is treated as no history
(the endpoint behaves exactly as with the parameter absent, and the guard
yields the empty parsed history with no validation error), even though
the raw comma-split parse of the empty string would be malformed. -/
theorem claim_C10 (st : ServiceState) (uid : Int) (limit : Int)
    (sample : List ItemRow) :
    get_recommendations st uid limit (some "") sample
      = get_recommendations st uid limit none sample
    ∧ parseOnlineHistory (some "") = .ok ([] : List Int)
    ∧ parseHistoryString "" = none := by
  refine ⟨?_, rfl, rfl⟩
  unfold get_recommendations
  rw [show parseOnlineHistory (some "") = parseOnlineHistory none from rfl]

/-- C4 counterexample: with two personal rows repeating track 7 for
user 1, the offline generator emits track 7 twice — the personal stage
performs no in-stage deduplication. -/
theorem claim_C4_counterexample :
    (get_offline_recommendations stDupPersonal 1 2 []).map (fun r => r.track_id)
      = [7, 7]
    ∧ ¬ (((get_offline_recommendations stDupPersonal 1 2 []).map
        (fun r => r.track_id)).Nodup) := by
  constructor
  · decide
  · decide

/-- C4 (amended): for every state, user, limit and random draw, the
offline generator emits at most `limit` candidates; and provided the
user's personal rows carry pairwise-distinct track ids, no track id is
repeated across the three stages. -/
theorem claim_C4_amended (st : ServiceState) (uid : Int) (limit : Nat)
    (sample : List ItemRow)
    (h : ((personalRowsFor st uid).map (fun r => r.track_id)).Nodup) :
    (get_offline_recommendations st uid limit sample).length ≤ limit ∧
    ((get_offline_recommendations st uid limit sample).map
      (fun r => r.track_id)).Nodup := by
  constructor
  · unfold get_offline_recommendations
    exact List.length_take_le _ _
  · have h1 : ((personalStage st uid limit).map (fun r => r.track_id)).Nodup :=
      (personalStage_ids_sublist st uid limit).nodup h
    have h2 := popularStage_nodup st limit _ h1
    have h3 := randomStage_nodup st limit sample _ h2
    unfold get_offline_recommendations
    exact List.Sublist.nodup
      ((List.take_sublist limit
        (randomStage st limit sample
          (popularStage st limit (personalStage st uid limit)))).map
        (fun r => r.track_id)) h3

/-- Witness for C4: a clean personal table; personal then popular fill
limit 2 with the distinct tracks 7 and 8. -/
theorem claim_C4_witness :
    ((personalRowsFor stOnePersonal 1).map (fun r => r.track_id)).Nodup ∧
    ((get_offline_recommendations stOnePersonal 1 2 []).length ≤ 2 ∧
      ((get_offline_recommendations stOnePersonal 1 2 []).map
        (fun r => r.track_id)).Nodup) :=
  ⟨by decide, claim_C4_amended stOnePersonal 1 2 [] (by decide)⟩

/-- A true negated-`contains` check is non-membership. -/
theorem not_contains_of_bnot {l : List Int} {a : Int}
    (h : (!l.contains a) = true) : a ∉ l := by
  simpa using h

/-- C5 (amended): blending two candidate lists whose track ids are each
pairwise-distinct yields a list with no duplicate track id, for every
total limit.  The generators guarantee this distinctness except when the
personal table repeats a track id for the user (see C4), in which case
the duplicate survives blending. -/
theorem claim_C5 (offline online : List TrackRecommendation) (n : Nat)
    (hoff : (offline.map (fun r => r.track_id)).Nodup)
    (hon : (online.map (fun r => r.track_id)).Nodup) :
    ((blend_recommendations offline online n).map (fun r => r.track_id)).Nodup := by
  simp only [blend_recommendations]
  rw [foldl_filterAppend]
  set A := offline.take (offlineQuota n) with hA
  set F := (online.take (n - offlineQuota n)).filter
    (fun r => !(A.map (fun r => r.track_id)).contains r.track_id) with hF
  have hAnodup : (A.map (fun r => r.track_id)).Nodup := by
    rw [hA]
    exact ((List.take_sublist _ _).map _).nodup hoff
  have hFnodup : (F.map (fun r => r.track_id)).Nodup := by
    rw [hF]
    exact (((List.filter_sublist _).trans (List.take_sublist _ _)).map _).nodup hon
  have hdisj : (A.map (fun r => r.track_id)).Disjoint
      (F.map (fun r => r.track_id)) := by
    intro a haA haF
    rcases List.mem_map.mp haF with ⟨r, hrF, hra⟩
    subst hra
    rw [hF] at hrF
    exact (not_contains_of_bnot (List.mem_filter.mp hrF).2) haA
  have hB2 : ((A ++ F).map (fun r => r.track_id)).Nodup := by
    rw [List.map_append]
    exact List.nodup_append.mpr ⟨hAnodup, hFnodup, hdisj⟩
  split
  · refine List.Sublist.nodup
      (List.Sublist.map (fun r : TrackRecommendation => r.track_id)
        (List.take_sublist n _)) ?_
    rw [List.map_append]
    refine List.nodup_append.mpr ⟨hB2, ?_, ?_⟩
    · exact List.Sublist.nodup
        (List.Sublist.map (fun r : TrackRecommendation => r.track_id)
          ((List.take_sublist _ _).trans
            ((List.filter_sublist _).trans (List.drop_sublist _ _)))) hoff
    · intro a haB2 haT
      rcases List.mem_map.mp haT with ⟨r, hrT, hra⟩
      subst hra
      have hrAdd := List.mem_of_mem_take hrT
      exact (not_contains_of_bnot (List.mem_filter.mp hrAdd).2) haB2
  · exact List.Sublist.nodup
      (List.Sublist.map (fun r : TrackRecommendation => r.track_id)
        (List.take_sublist n _)) hB2

/-- Witness for C5: two duplicate-free inputs blend to a duplicate-free
output at total limit 2. -/
theorem claim_C5_witness :
    (([sampleRec 1 1, sampleRec 2 1].map (fun r => r.track_id)).Nodup) ∧
    (([sampleRec 3 1].map (fun r => r.track_id)).Nodup) ∧
    ((blend_recommendations [sampleRec 1 1, sampleRec 2 1] [sampleRec 3 1]
      2).map (fun r => r.track_id)).Nodup :=
  ⟨by decide, by decide,
    claim_C5 [sampleRec 1 1, sampleRec 2 1] [sampleRec 3 1] 2
      (by decide) (by decide)⟩

/-- C1 counterexample: with outer `limit = 1` and a history whose seed
has two similar resolvable tracks, the orchestrator's reported online
count is 1, while generation with the allegedly fixed limit 5 yields 2
candidates — so the online generator is not invoked with limit 5. -/
theorem claim_C1_counterexample :
    (get_recommendations stOnline 7 1 (some "1") []).map
      (fun r => r.statistics.online_count) = .ok 1
    ∧ (get_online_recommendations stOnline [1] 5).length = 2 := by
  constructor
  · decide
  · decide

/-- C1 (amended): for every valid request, the orchestrator invokes the
online generator with the request's outer `limit` (not a fixed 5): the
reported online count is the length of `get_online_recommendations` at
that limit. -/
theorem claim_C1_amended (st : ServiceState) (uid limit : Int)
    (oh : Option String) (sample : List ItemRow) (l : List Int)
    (hv : ¬(limit ≤ 0 ∨ 100 < limit)) (hp : parseOnlineHistory oh = .ok l) :
    (get_recommendations st uid limit oh sample).map
      (fun r => r.statistics.online_count)
      = .ok (get_online_recommendations st l limit.toNat).length := by
  unfold get_recommendations
  rw [if_neg hv, hp]
  rfl

/-- Witness for C1: the amended statement at `limit = 1`, history "1". -/
theorem claim_C1_witness :
    ¬((1 : Int) ≤ 0 ∨ 100 < (1 : Int)) ∧
    parseOnlineHistory (some "1") = .ok [1] ∧
    (get_recommendations stOnline 7 1 (some "1") []).map
        (fun r => r.statistics.online_count)
      = .ok (get_online_recommendations stOnline [1] (1 : Int).toNat).length :=
  ⟨by decide, by decide,
    claim_C1_amended stOnline 7 1 (some "1") [] [1] (by decide) (by decide)⟩

/-- C2 counterexample: at `total_limit = 90` the blender's quota
`int(90 * 0.7)` is 62 in IEEE-754 double arithmetic
(`90 * 0.7 = 62.99999999999999…`), not `floor(90 * 7 / 10) = 63`. -/
theorem claim_C2_counterexample :
    offlineQuota 90 = 62 ∧ ¬ (offlineQuota 90 = (90 * 7) / 10) := by
  constructor
  · decide
  · decide

set_option maxHeartbeats 1000000 in
/-- C2 (amended): for every `total_limit` in `[1,100]` except 90, the
blender's offline quota equals `floor(total_limit * 7/10)`; at 90 it is
62 (one less, by float rounding); the online quota is always the
difference. -/
theorem claim_C2_amended :
    ∀ n : Nat, n ≤ 100 → 1 ≤ n →
      onlineQuota n = n - offlineQuota n ∧
      (n ≠ 90 → offlineQuota n = (n * 7) / 10) ∧
      offlineQuota 90 = 62 := by decide

/-- Witness for C2: the amended statement at `total_limit = 10`. -/
theorem claim_C2_witness :
    (10 : Nat) ≤ 100 ∧ 1 ≤ (10 : Nat) ∧
    (onlineQuota 10 = 10 - offlineQuota 10 ∧
      ((10 : Nat) ≠ 90 → offlineQuota 10 = (10 * 7) / 10) ∧
      offlineQuota 90 = 62) :=
  ⟨by decide, by decide, claim_C2_amended 10 (by decide) (by decide)⟩

/-- C3 counterexample: with `total_limit = 3` (quotas 2 offline /
1 online), offline `[id 1]` and online `[id 1, id 2]`, the code's blend
is just `[id 1]` — it scans only the first `online_quota` online
candidates — while the spec's append rule (skipping non-appended
duplicates without consuming quota) would append id 2. -/
theorem claim_C3_counterexample :
    blend_recommendations [sampleRec 1 1] [sampleRec 1 1, sampleRec 2 1] 3
      = [sampleRec 1 1]
    ∧ specOnlineFill
        (([sampleRec 1 1].take (offlineQuota 3)).map (fun r => r.track_id))
        [sampleRec 1 1, sampleRec 2 1] (onlineQuota 3)
      = [sampleRec 2 1]
    ∧ sampleRec 2 1
        ∉ blend_recommendations [sampleRec 1 1] [sampleRec 1 1, sampleRec 2 1] 3 := by
  refine ⟨by decide, by decide, by decide⟩

/-- C3 (amended): after the offline head, the blend appends, in order,
exactly those of the **first `online_quota`** online candidates whose
`track_id` is not in the offline head (duplicates among that window are
skipped but still consume window positions), followed by an offline
backfill drawn from beyond the quota, truncated to `total_limit`. -/
theorem claim_C3_amended (offline online : List TrackRecommendation) (n : Nat) :
    ∃ tail, tail.Sublist (offline.drop (offlineQuota n)) ∧
      blend_recommendations offline online n =
        (offline.take (offlineQuota n)
          ++ (online.take (n - offlineQuota n)).filter
              (fun r => !((offline.take (offlineQuota n)).map
                (fun b => b.track_id)).contains r.track_id)
          ++ tail).take n := by
  simp only [blend_recommendations]
  rw [foldl_filterAppend]
  set A := offline.take (offlineQuota n) with hA
  set F := (online.take (n - offlineQuota n)).filter
      (fun r => !(A.map (fun r => r.track_id)).contains r.track_id) with hF
  split
  · refine ⟨((offline.drop (offlineQuota n)).filter
        (fun r => !((A ++ F).map (fun b => b.track_id)).contains r.track_id)).take
        (n - (A ++ F).length), ?_, ?_⟩
    · exact (List.take_sublist _ _).trans (List.filter_sublist _)
    · rw [List.append_assoc]
  · exact ⟨[], List.nil_sublist _, by rw [List.append_nil]⟩

/-- Membership in an insertion: the inserted element or an old one. -/
theorem mem_insertLe {α : Type} (le : α → α → Bool) (a x : α) :
    ∀ l : List α, x ∈ insertLe le a l ↔ x = a ∨ x ∈ l := by
  intro l
  induction l with
  | nil => simp [insertLe]
  | cons b bs ih =>
    unfold insertLe
    split
    · simp [List.mem_cons]
    · rw [List.mem_cons, ih, List.mem_cons]
      tauto

/-- Inserting into a `le`-sorted list keeps it sorted, for a total and
transitive Boolean comparator. -/
theorem pairwise_insertLe {α : Type} (le : α → α → Bool)
    (total : ∀ a b, le a b = false → le b a = true)
    (htrans : ∀ a b c, le a b = true → le b c = true → le a c = true)
    (a : α) :
    ∀ l : List α, l.Pairwise (fun x y => le x y = true) →
      (insertLe le a l).Pairwise (fun x y => le x y = true) := by
  intro l
  induction l with
  | nil => intro _; simp [insertLe]
  | cons b bs ih =>
    intro hl
    rcases List.pairwise_cons.mp hl with ⟨hb, hbs⟩
    unfold insertLe
    split
    case isTrue hab =>
      refine List.pairwise_cons.mpr ⟨?_, hl⟩
      intro y hy
      rcases List.mem_cons.mp hy with rfl | hy'
      · exact hab
      · exact htrans a b y hab (hb y hy')
    case isFalse hab =>
      have hab' : le a b = false := by
        revert hab; cases le a b <;> simp
      refine List.pairwise_cons.mpr ⟨?_, ih hbs⟩
      intro y hy
      rcases (mem_insertLe le a y bs).mp hy with rfl | hy'
      · exact total _ b hab'
      · exact hb y hy'

/-- The stable sort produces a `le`-sorted list. -/
theorem sortBy_pairwise {α : Type} (le : α → α → Bool)
    (total : ∀ a b, le a b = false → le b a = true)
    (htrans : ∀ a b c, le a b = true → le b c = true → le a c = true) :
    ∀ l : List α, (sortBy le l).Pairwise (fun x y => le x y = true) := by
  intro l
  induction l with
  | nil => simp [sortBy]
  | cons a as ih =>
    unfold sortBy
    exact pairwise_insertLe le total htrans a _ ih

/-- Stability through insertion: filtering by a class `p` that is closed
downward along strict `le`-precedence commutes with inserting. -/
theorem filter_insertLe {α : Type} (le : α → α → Bool) (p : α → Bool)
    (hcompat : ∀ a b, p a = true → le a b = false → p b = false) (a : α) :
    ∀ l : List α, (insertLe le a l).filter p
      = if p a then a :: l.filter p else l.filter p := by
  intro l
  induction l with
  | nil => simp [insertLe, List.filter_cons]
  | cons b bs ih =>
    unfold insertLe
    split
    case isTrue hab =>
      rw [List.filter_cons]
    case isFalse hab =>
      have hab' : le a b = false := by
        revert hab; cases le a b <;> simp
      rw [List.filter_cons, List.filter_cons, ih]
      cases hpa : p a with
      | true =>
        have hpb : p b = false := hcompat a b hpa hab'
        simp [hpa, hpb]
      | false =>
        cases hpb : p b <;> simp [hpa, hpb]

/-- Stability of the stable sort: filtering to one tie-class (a `p`
closed downward along strict precedence) returns the class in its
original order. -/
theorem filter_sortBy {α : Type} (le : α → α → Bool) (p : α → Bool)
    (hcompat : ∀ a b, p a = true → le a b = false → p b = false) :
    ∀ l : List α, (sortBy le l).filter p = l.filter p := by
  intro l
  induction l with
  | nil => rfl
  | cons a as ih =>
    unfold sortBy
    rw [filter_insertLe le p hcompat, ih, List.filter_cons]

/-- C6: the online generator's output is sorted descending by score, and
within any one score class the candidates appear in their deduplicated
encounter order (the sort is stable), with truncation to `limit` applied
after the sort. -/
theorem claim_C6 (st : ServiceState) (hist : List Int) (limit : Nat) (s : ℚ) :
    (get_online_recommendations st hist limit).Pairwise
      (fun a b => b.score ≤ a.score)
    ∧ ((get_online_recommendations st hist limit).filter
        (fun r => decide (r.score = s))).Sublist
      ((onlineDeduped st hist).filter (fun r => decide (r.score = s))) := by
  have total : ∀ a b : TrackRecommendation,
      decide (b.score ≤ a.score) = false → decide (a.score ≤ b.score) = true := by
    intro a b h
    rw [decide_eq_false_iff_not] at h
    exact decide_eq_true (le_of_not_le h)
  have htrans : ∀ a b c : TrackRecommendation,
      decide (b.score ≤ a.score) = true → decide (c.score ≤ b.score) = true →
      decide (c.score ≤ a.score) = true := by
    intro a b c h1 h2
    exact decide_eq_true (le_trans (of_decide_eq_true h2) (of_decide_eq_true h1))
  constructor
  · unfold get_online_recommendations
    refine List.Pairwise.imp (fun h => of_decide_eq_true h) ?_
    exact List.Pairwise.sublist (List.take_sublist _ _)
      (sortBy_pairwise _ total htrans _)
  · unfold get_online_recommendations
    have hcompat : ∀ a b : TrackRecommendation,
        decide (a.score = s) = true → decide (b.score ≤ a.score) = false →
        decide (b.score = s) = false := by
      intro a b hpa hab
      have ha := of_decide_eq_true hpa
      rw [decide_eq_false_iff_not] at hab
      rw [decide_eq_false_iff_not]
      intro hb
      exact hab (le_of_eq (hb.trans ha.symm))
    have h1 := List.Sublist.filter (fun r : TrackRecommendation => decide (r.score = s))
      (List.take_sublist limit
        (sortBy (fun a b => decide (b.score ≤ a.score)) (onlineDeduped st hist)))
    rw [filter_sortBy _ _ hcompat] at h1
    exact h1

/-- C5 counterexample: lists actually produced by the two generators are
not always duplicate-free, and blending preserves the duplicate.  On
`stDupPersonal` (personal table repeats track 7 for user 1), the offline
generator at limit 3 yields `[7, 7]`, the online generator (empty
history) yields `[]`, and the blended output at `total_limit = 3` still
carries track 7 twice. -/
theorem claim_C5_counterexample :
    (blend_recommendations (get_offline_recommendations stDupPersonal 1 3 [])
        (get_online_recommendations stDupPersonal [] 3) 3).map
      (fun r => r.track_id) = [7, 7]
    ∧ ¬ (((blend_recommendations (get_offline_recommendations stDupPersonal 1 3 [])
        (get_online_recommendations stDupPersonal [] 3) 3).map
      (fun r => r.track_id)).Nodup) := by
  constructor
  · decide
  · decide
